import Mathlib

/-!
Verification development for the libscraper repository (tjodalv/libscraper).

The definitions below are a shallow embedding of the crawl/extraction
orchestration engine of `index.js` (the `ScraperAPI` closure variant, the one
with per-URL supplemental data), of the formatters in `formatters.js`, and of
the module-level `defaultOptions` / `deepMerge` construction path.  JavaScript
objects are modelled as association lists with JS property-assignment
semantics, the `fetch` collaborator as a function from URL strings to an
optional page, and the side effects of a crawl (fetch attempts, extractor
invocations, throttle pauses) as an explicit event trace.
-/

namespace Libscraper

/-! ## JavaScript object model

A flat JS object is an association list from string keys to string values.
Property assignment (`obj[k] = v`) updates an existing key in place, keeping
its position, and appends a missing key at the end — exactly the JS key-order
semantics that the spread operator relies on. -/

/-- A flat JavaScript record: ordered key/value pairs. -/
abbrev Record := List (String × String)

/-- Does the record own the key (JS `k in obj`)? -/
def recHasKey (r : Record) (k : String) : Bool :=
  r.any (fun p => p.1 = k)

/-- JS property assignment: update an existing key in place (keeping its
position) or append a new key at the end. -/
def recSet (r : Record) (k : String) (v : String) : Record :=
  if recHasKey r k then
    r.map (fun p => if p.1 = k then (k, v) else p)
  else
    r ++ [(k, v)]

/-- Property read (`obj[k]`) returning `none` for `undefined`: the value
stored under the key, scanning entries in order. -/
def recLookup (r : Record) (k : String) : Option String :=
  match r with
  | [] => none
  | (k0, v0) :: rest => if k0 = k then some v0 else recLookup rest k

/-- The JS object spread of `a` then `b`: assign every entry of `b` into `a`
in order, later entries winning. -/
def spreadMerge (a b : Record) : Record :=
  b.foldl (fun acc p => recSet acc p.1 p.2) a

/-- Keys of a record in order (JS `Object.keys`); faithful for records with
no duplicate keys, which is what every JS object satisfies. -/
def objKeys (r : Record) : List String :=
  r.map (fun p => p.1)

/-- A record is well formed (represents a JS object) when its keys are
pairwise distinct. -/
def WFRec (r : Record) : Prop :=
  (objKeys r).Nodup

/-! ## URL helpers

`isValidURL` in `index.js` calls the WHATWG `new URL(url)` constructor and
reports whether it throws; `getBaseUrl` corresponds to
`parsedUrl.protocol + "//" + parsedUrl.host` computed from the seed URL.
Both are platform APIs, not repository code. -/

/-- Split a character list at the first occurrence of the literal `://`,
returning the scheme part and the remainder. -/
def urlSchemeSplit : List Char → Option (List Char × List Char)
  | [] => none
  | ':' :: '/' :: '/' :: rest => some ([], rest)
  | c :: cs =>
    match urlSchemeSplit cs with
    | some p => some (c :: p.1, p.2)
    | none => none

/-- Modelled from the spec: the WHATWG `new URL` constructor used by
`isValidURL` — a string is accepted as a syntactically well-formed absolute
URL when it carries a nonempty alphabetic scheme, the `://` separator and a
nonempty remainder. -/
def isValidURL (url : String) : Bool :=
  match urlSchemeSplit url.data with
  | some (scheme, rest) =>
    !scheme.isEmpty && scheme.all Char.isAlpha && !rest.isEmpty
  | none => false

/-- Modelled from the spec: `protocol + "//" + host` of the parsed seed URL,
used to absolutize relative item links. -/
def getBaseUrl (url : String) : String :=
  match urlSchemeSplit url.data with
  | some (scheme, rest) =>
    String.mk (scheme ++ (':' :: '/' :: '/' :: rest.takeWhile (fun c => c ≠ '/')))
  | none => url

/-- Does the first list start with the second one? -/
def listStartsWith : List Char → List Char → Bool
  | _, [] => true
  | [], _ :: _ => false
  | c :: cs, p :: ps => c = p && listStartsWith cs ps

/-- The `itemUrl.startsWith('http')` test from the items loop. -/
def startsWithHttp (s : String) : Bool :=
  listStartsWith s.data ('h' :: 't' :: 't' :: 'p' :: [])

/-- The regex replace `/https?:\/\//` with an empty string: drop the first
occurrence of `https://` (preferred, as `s?` is greedy) or `http://`. -/
def stripHttpScheme : List Char → List Char
  | 'h' :: 't' :: 't' :: 'p' :: 's' :: ':' :: '/' :: '/' :: rest => rest
  | 'h' :: 't' :: 't' :: 'p' :: ':' :: '/' :: '/' :: rest => rest
  | c :: cs => c :: stripHttpScheme cs
  | [] => []

/-- Is the character a JS word character (`\w`, i.e. `[A-Za-z0-9_]`)? -/
def isWordChar (c : Char) : Bool :=
  c.isAlpha || c.isDigit || c = '_'

/-- The global regex replace `/\W+/g` by `_`: every maximal run of non-word
characters collapses to a single underscore.  The flag records whether the
previous character belonged to such a run. -/
def collapseNonWord : Bool → List Char → List Char
  | _, [] => []
  | inRun, c :: cs =>
    if isWordChar c then c :: collapseNonWord false cs
    else if inRun then collapseNonWord true cs
    else '_' :: collapseNonWord true cs

/-- The default filename derivation `getFilenameFromUrl` from `index.js`:
`items_` followed by the URL with its scheme stripped and non-word runs
collapsed to underscores. -/
def getFilenameFromUrl (url : String) : String :=
  "items_" ++ String.mk (collapseNonWord false (stripHttpScheme url.data))

/-- The last path segment of a file path. -/
def lastSegment (s : List Char) : List Char :=
  s.foldl (fun acc c => if c = '/' then [] else acc ++ [c]) []

/-- The `path.extname(filepath)` truthiness test of the formatters: the final
path segment contains a dot. -/
def hasExtension (fp : String) : Bool :=
  (lastSegment fp.data).contains '.'

/-- Append the default extension when the path has none, as both formatters
do before writing. -/
def ensureExt (fp ext : String) : String :=
  if hasExtension fp then fp else fp ++ ext

/-! ## Crawl engine state

The scraper closure of `index.js` owns two mutable variables that outlive a
single `scrapeUrl` call: the `scrapedUrls` set (declared next to `scrapeUrl`,
outside of it) and the `fetched_pages_num` counter.  They form the persistent
state `St`.  Observable side effects are collected in an event trace. -/

/-- Parsed page content handed around by the engine.  The HTML query layer is
an external collaborator, so a page is just an opaque token. -/
abbrev Page := String

/-- The fetch collaborator: `fetchPage` succeeds with parsed content or
signals failure with `none` (a thrown error or empty body). -/
structure Env where
  fetch : String → Option Page

/-- The throttling-related part of the configuration record. -/
structure Config where
  requestInterval : Nat
  batchSize : Nat
  batchInterval : Nat
deriving DecidableEq, Repr

/-- Observable crawl events: a fetch attempt, a successful fetch, an
invocation of the item-data-extractor, and a throttling pause of the given
number of milliseconds. -/
inductive Event where
  | fetchAttempt (url : String)
  | fetchOk (url : String)
  | extractorCall (url : String)
  | pause (ms : Nat)
deriving DecidableEq, Repr

/-- State surviving across `scrapeUrl` calls: the `scrapedUrls` set (as a
duplicate-free list) and the `fetched_pages_num` counter. -/
structure St where
  scraped : List String
  fpn : Nat
deriving DecidableEq, Repr

/-- The `fetchPage` function of `index.js`: ask the collaborator for the URL;
on success increment `fetched_pages_num` and return the parsed page, on
failure log and return `null`. -/
def fetchPage (env : Env) (url : String) (st : St) :
    Option Page × St × List Event :=
  match env.fetch url with
  | some p => (some p, { st with fpn := st.fpn + 1 },
               [Event.fetchAttempt url, Event.fetchOk url])
  | none => (none, st, [Event.fetchAttempt url])

/-- The `throttleRequests` function of `index.js`: when the counter equals
`batchSize`, reset it and pause for `batchInterval`; otherwise pause for
`requestInterval`. -/
def throttleRequests (cfg : Config) (st : St) : St × List Event :=
  if st.fpn = cfg.batchSize then
    ({ st with fpn := 0 }, [Event.pause cfg.batchInterval])
  else
    (st, [Event.pause cfg.requestInterval])

/-! ## Queues and the re-queueing callback -/

/-- The `dataForUrl` object: supplemental data keyed by URL. -/
abbrev DataForUrl := List (String × Record)

/-- Assignment `dataForUrl[u] = urlData` with JS object semantics. -/
def dfuSet (m : DataForUrl) (k : String) (v : Record) : DataForUrl :=
  if m.any (fun p => p.1 = k) then
    m.map (fun p => if p.1 = k then (k, v) else p)
  else
    m ++ [(k, v)]

/-- Read `dataForUrl[u]`, `none` meaning `undefined`. -/
def dfuLookup (m : DataForUrl) (k : String) : Option Record :=
  (m.find? (fun p => p.1 = k)).map (fun p => p.2)

/-- A queue object together with the `dataForUrl` store that the re-queueing
callback writes into. -/
structure QState where
  queue : List String
  dfu : DataForUrl
deriving DecidableEq, Repr

/-- One URL processed by the `appendUrlToQueue` callback of `index.js`: the
URL is appended only when it is a valid absolute URL, not in the scraped set
and not already pending in this queue; supplemental data, when given (truthy),
is recorded under the URL. -/
def appendUrlOne (scraped : List String) (qs : QState) (u : String)
    (urlData : Option Record) : QState :=
  if isValidURL u && !scraped.contains u && !qs.queue.contains u then
    { queue := qs.queue ++ [u],
      dfu := match urlData with
             | some d => dfuSet qs.dfu u d
             | none => qs.dfu }
  else qs

/-- The argument accepted by the re-queueing callback: a single URL or an
array of URLs. -/
inductive UrlArg where
  | one (u : String)
  | many (us : List String)
deriving DecidableEq, Repr

/-- The full `appendUrlToQueue(queue)(url, urlData)` callback: a single URL is
handled directly, an array by `forEach` over its elements. -/
def appendUrlToQueue (scraped : List String) (qs : QState) (arg : UrlArg)
    (urlData : Option Record) : QState :=
  match arg with
  | UrlArg.one u => appendUrlOne scraped qs u urlData
  | UrlArg.many us => us.foldl (fun acc u => appendUrlOne scraped acc u urlData) qs

/-! ## Callbacks and extractor results -/

/-- The value returned by the item-data-extractor: `null`, a single object,
or an array of objects. -/
inductive ItemData where
  | null
  | obj (r : Record)
  | arr (rs : List Record)
deriving DecidableEq, Repr

/-- The effect of one extractor invocation: the calls it made to the
re-queueing callback it received, in order, and its return value.  The
extractor cannot observe the queue, so replaying the calls after it returns
is equivalent to interleaving them. -/
structure ExtractorOut where
  requeues : List (UrlArg × Option Record)
  result : ItemData

/-- The pluggable callbacks registered on the scraper (the file-download
collaborator is external I/O and does not influence the engine's control
flow, so it is not modelled). -/
structure Callbacks where
  paginationLinksFinder : Option (Page → String → List String)
  itemsLinkFinder : Option (Page → String → List String)
  itemDataExtractor : Option Page → String → Option Record → ExtractorOut

/-- Replay the re-queueing calls an extractor made, in order. -/
def applyRequeues (scraped : List String) (qs : QState)
    (reqs : List (UrlArg × Option Record)) : QState :=
  reqs.foldl (fun acc r => appendUrlToQueue scraped acc r.1 r.2) qs

/-! ## Result accumulation -/

/-- An element of the accumulated `items` array.  Because the array branch of
`scrapeUrl` appends the mapped array itself rather than spreading it, an
element is either a flat record or a nested list of records. -/
inductive Item where
  | flat (r : Record)
  | nested (rs : List Record)
deriving DecidableEq, Repr

/-- The merge applied to every produced record: the object literal spreading
the extracted fields, then the seed static data, then `extraData || ` the
empty object. -/
def mergeItem (r staticData : Record) (extra : Option Record) : Record :=
  spreadMerge (spreadMerge (spreadMerge [] r) staticData) (extra.getD [])

/-- The result-handling block of `scrapeUrl`: an array result is mapped
element-wise through the merge and pushed as a single nested element; a
truthy object result is merged and pushed flat; `null` adds nothing. -/
def appendItemData (items : List Item) (d : ItemData) (staticData : Record)
    (extra : Option Record) : List Item :=
  match d with
  | ItemData.null => items
  | ItemData.obj r => items ++ [Item.flat (mergeItem r staticData extra)]
  | ItemData.arr rs =>
    items ++ [Item.nested (rs.map (fun r => mergeItem r staticData extra))]

/-! ## The crawl loops of `scrapeUrl`

Both `while` loops of `scrapeUrl` consume queues that extractor callbacks may
extend, so neither terminates structurally; a fuel parameter bounds the number
of iterations, and every theorem about a concrete crawl supplies enough fuel
for the loop to drain its queue. -/

/-- The inner `while (itemsLinks.list.length > 0)` loop: shift an item URL,
absolutize it when it does not start with `http`, fetch it, read any
supplemental data recorded for it, invoke the extractor (with the fetched
page, which may be the failure signal), replay its re-queueing calls against
the items list, merge and append its result, throttle, and continue.  Item
URLs are never added to the scraped set. -/
def itemsLoop (env : Env) (cfg : Config) (cbs : Callbacks)
    (staticData : Record) (baseUrl : String) :
    Nat → QState → List Item → St → List Item × DataForUrl × St × List Event
  | 0, qs, items, st => (items, qs.dfu, st, [])
  | fuel + 1, qs, items, st =>
    match qs.queue with
    | [] => (items, qs.dfu, st, [])
    | itemUrl0 :: rest =>
      let itemUrl := if startsWithHttp itemUrl0 then itemUrl0
                     else baseUrl ++ itemUrl0
      let fr := fetchPage env itemUrl st
      let extraData := dfuLookup qs.dfu itemUrl
      let out := cbs.itemDataExtractor fr.1 itemUrl extraData
      let qs1 := applyRequeues st.scraped { queue := rest, dfu := qs.dfu } out.requeues
      let items1 := appendItemData items out.result staticData extraData
      let th := throttleRequests cfg fr.2.1
      let r := itemsLoop env cfg cbs staticData baseUrl fuel qs1 items1 th.1
      (r.1, r.2.1, r.2.2.1,
       fr.2.2 ++ [Event.extractorCall itemUrl] ++ th.2 ++ r.2.2.2)

/-- The outer `while (urlQueue.list.length > 0)` loop: shift a page URL, skip
it when already scraped, otherwise fetch it (reusing the seed page when it
equals the seed URL), mark it scraped regardless of the fetch outcome, skip
on fetch failure, and otherwise either walk its item links through
`itemsLoop` or extract directly from the page with the re-queueing callback
bound to this outer queue; throttle at the end of every processed entry. -/
def crawlLoop (env : Env) (cfg : Config) (cbs : Callbacks) (url : String)
    (seedPage : Page) (staticData : Record) (baseUrl : String) :
    Nat → QState → List Item → St → List Item × St × List Event
  | 0, _, items, st => (items, st, [])
  | fuel + 1, qs, items, st =>
    match qs.queue with
    | [] => (items, st, [])
    | pageUrl :: rest =>
      if st.scraped.contains pageUrl then
        crawlLoop env cfg cbs url seedPage staticData baseUrl fuel
          { queue := rest, dfu := qs.dfu } items st
      else
        let fr : Option Page × St × List Event :=
          if pageUrl = url then (some seedPage, st, [])
          else fetchPage env pageUrl st
        let st2 : St := { fr.2.1 with scraped := fr.2.1.scraped ++ [pageUrl] }
        match fr.1 with
        | none =>
          let r := crawlLoop env cfg cbs url seedPage staticData baseUrl fuel
            { queue := rest, dfu := qs.dfu } items st2
          (r.1, r.2.1, fr.2.2 ++ r.2.2)
        | some page =>
          match cbs.itemsLinkFinder with
          | some finder =>
            let itemsLinks := finder page url
            let ir := itemsLoop env cfg cbs staticData baseUrl fuel
              { queue := itemsLinks, dfu := qs.dfu } items st2
            let th := throttleRequests cfg ir.2.2.1
            let r := crawlLoop env cfg cbs url seedPage staticData baseUrl fuel
              { queue := rest, dfu := ir.2.1 } ir.1 th.1
            (r.1, r.2.1, fr.2.2 ++ ir.2.2.2 ++ th.2 ++ r.2.2)
          | none =>
            let extraData := dfuLookup qs.dfu pageUrl
            let out := cbs.itemDataExtractor (some page) pageUrl extraData
            let qs1 := applyRequeues st2.scraped { queue := rest, dfu := qs.dfu }
              out.requeues
            let items1 := appendItemData items out.result staticData extraData
            let th := throttleRequests cfg st2
            let r := crawlLoop env cfg cbs url seedPage staticData baseUrl fuel
              qs1 items1 th.1
            (r.1, r.2.1,
             fr.2.2 ++ [Event.extractorCall pageUrl] ++ th.2 ++ r.2.2)

/-- The `scrapeUrl` function of `index.js`: fetch the seed URL, returning the
failure signal (`undefined`, modelled as `none`) when the fetch fails;
otherwise collect the seed plus any pagination links into a fresh work queue
with a fresh `dataForUrl` store and drain it through `crawlLoop`.  The
`scrapedUrls` set lives in `St`, outside this function, exactly as in the
source. -/
def scrapeUrl (env : Env) (cfg : Config) (cbs : Callbacks) (fuel : Nat)
    (url : String) (staticData : Record) (st : St) :
    Option (List Item) × St × List Event :=
  let baseUrl := getBaseUrl url
  let fr := fetchPage env url st
  match fr.1 with
  | none => (none, fr.2.1, fr.2.2)
  | some seedPage =>
    let urlsToScrape := [url] ++ (match cbs.paginationLinksFinder with
                                  | some f => f seedPage url
                                  | none => [])
    let r := crawlLoop env cfg cbs url seedPage staticData baseUrl fuel
      { queue := urlsToScrape, dfu := [] } [] fr.2.1
    (some r.1, r.2.1, fr.2.2 ++ r.2.2)

/-! ## Formatters and the top-level scrape loop -/

/-- The `jsonFormatter` of `formatters.js` applied to the value `scrape`
passes it.  Reading `data.length` of the `undefined` returned by a failed
seed crawl throws a `TypeError`, modelled as `Except.error`; an empty array
saves nothing and reports `false` (`none`); otherwise the file path, with the
`.json` extension ensured, is written and returned. -/
def jsonFormatterRun (filepath : String) (data : Option (List Item)) :
    Except Unit (Option String) :=
  match data with
  | none => Except.error ()
  | some [] => Except.ok none
  | some (_ :: _) => Except.ok (some (ensureExt filepath ".json"))

/-- A seed entry given to `scrape`: a bare URL string or an object carrying a
URL and static data. -/
inductive Seed where
  | bare (url : String)
  | withData (url : String) (staticData : Record)

/-- The `scrape` loop of `index.js` under the default configuration (`json`
format, identity filename formatter): for each seed, object entries with an
invalid URL are skipped, then `scrapeUrl` runs and its result is handed to
the formatter.  A formatter `TypeError` aborts the whole run; results are
the list of written file paths, the final state, whether the run crashed, and
the event trace. -/
def scrape (env : Env) (cfg : Config) (cbs : Callbacks) (fuel : Nat) :
    List Seed → St → List String × St × Bool × List Event
  | [], st => ([], st, false, [])
  | s :: rest, st =>
    let entry : String × Record × Bool :=
      match s with
      | Seed.bare u => (u, [], false)
      | Seed.withData u d => (u, d, !isValidURL u)
    if entry.2.2 then
      scrape env cfg cbs fuel rest st
    else
      let sr := scrapeUrl env cfg cbs fuel entry.1 entry.2.1 st
      let filename := getFilenameFromUrl entry.1
      match jsonFormatterRun filename sr.1 with
      | Except.error _ => ([], sr.2.1, true, sr.2.2)
      | Except.ok w =>
        let r := scrape env cfg cbs fuel rest sr.2.1
        (w.toList ++ r.1, r.2.1, r.2.2.1, sr.2.2 ++ r.2.2.2)

/-! ## The CSV formatter -/

/-- The JS `new Set(list)` construction: keep the first occurrence of every
element, in encounter order. -/
def jsSetOfList (l : List String) : List String :=
  l.foldl (fun acc k => if acc.contains k then acc else acc ++ [k]) []

/-- The observable output of the CSV formatter: the written path, the header
row and the data rows. -/
structure CsvOut where
  path : String
  header : List String
  rows : List (List String)
deriving DecidableEq, Repr

/-- The `csvFormatter` of `formatters.js` on a sequence of flat records:
empty data saves nothing and reports `false` (`none`); otherwise the header
is the set of all record keys and one row per record is written.  The row
rendering is modelled from the spec of the external `csv-writer` library
(`createObjectCsvWriter` / `writeRecords`): each row lists, per header key,
the record's value or an empty cell. -/
def csvFormatter (filepath : String) (data : List Record) : Option CsvOut :=
  match data with
  | [] => none
  | _ :: _ =>
    let fp := ensureExt filepath ".csv"
    let keys := jsSetOfList (data.flatMap objKeys)
    some { path := fp,
           header := keys,
           rows := data.map (fun r => keys.map (fun k => (recLookup r k).getD "")) }

/-- The spec's description of the CSV header, written as plain recursion:
every key appears at its first appearance position, later duplicates being
erased from the tail. -/
def firstAppearanceOrder : List String → List String
  | [] => []
  | k :: ks => k :: (firstAppearanceOrder ks).filter (fun a => a ≠ k)

/-! ## Construction-time deep merge over a mutable object heap

`createScraper` runs `deepMerge({ ...defaultOptions }, options)`.  Because JS
objects are references and `deepMerge` assigns into its target, aliasing is
essential here, so this part of the embedding uses an explicit heap: object
values are primitives or references to heap addresses, and nested objects of
the module-level `defaultOptions` are heap cells that a shallow copy shares. -/

/-- A JS value in the heap model: a primitive (rendered as a string) or a
reference to an object. -/
inductive JsVal where
  | prim (s : String)
  | ref (a : Nat)
deriving DecidableEq, Repr

/-- An object: ordered own properties. -/
abbrev JsObj := List (String × JsVal)

/-- The heap: addresses mapped to objects. -/
abbrev Heap := List (Nat × JsObj)

/-- Read the object stored at an address (the empty object for a dangling
address, which never occurs in the runs below). -/
def heapGet (h : Heap) (a : Nat) : JsObj :=
  ((h.find? (fun p => p.1 = a)).map (fun p => p.2)).getD []

/-- Read one property of an object. -/
def objGet (o : JsObj) (k : String) : Option JsVal :=
  (o.find? (fun p => p.1 = k)).map (fun p => p.2)

/-- JS property assignment inside an object. -/
def objSet (o : JsObj) (k : String) (v : JsVal) : JsObj :=
  if o.any (fun p => p.1 = k) then
    o.map (fun p => if p.1 = k then (k, v) else p)
  else
    o ++ [(k, v)]

/-- Mutate `target[k] = v` at a heap address. -/
def heapSetKey (h : Heap) (a : Nat) (k : String) (v : JsVal) : Heap :=
  h.map (fun p => if p.1 = a then (a, objSet p.2 k v) else p)

/-- Store a whole object at an address, adding the address when new. -/
def heapAlloc (h : Heap) (a : Nat) (o : JsObj) : Heap :=
  if h.any (fun p => p.1 = a) then
    h.map (fun p => if p.1 = a then (a, o) else p)
  else
    h ++ [(a, o)]

/-- An address not used by the heap. -/
def freshAddr (h : Heap) : Nat :=
  (h.map (fun p => p.1)).foldl max 0 + 1

/-- The `deepMerge(target, source)` function of `index.js` on the heap: walk
the source's own properties in order; a property whose value is an object
(reference) and whose key is already defined on the target is merged
recursively into the target's existing value, every other property is
assigned.  Assigning into a primitive target is a silent no-op, as in
non-strict JS.  The result is the (mutated) target value; fuel bounds the
nesting depth. -/
def deepMergeVal : Nat → Heap → JsVal → Nat → Heap × JsVal
  | 0, h, tv, _ => (h, tv)
  | _ + 1, h, JsVal.prim p, _ => (h, JsVal.prim p)
  | fuel + 1, h, JsVal.ref t, srcAddr =>
    let srcEntries := heapGet h srcAddr
    let h2 := srcEntries.foldl
      (fun hh kv =>
        match kv.2 with
        | JsVal.ref sa =>
          match objGet (heapGet hh t) kv.1 with
          | some tvk =>
            let m := deepMergeVal fuel hh tvk sa
            heapSetKey m.1 t kv.1 m.2
          | none => heapSetKey hh t kv.1 kv.2
        | JsVal.prim p => heapSetKey hh t kv.1 (JsVal.prim p))
      h
    (h2, JsVal.ref t)

/-- Address of the module-level `defaultOptions` object. -/
def defaultOptionsAddr : Nat := 0

/-- The module-level `defaultOptions` heap of `index.js`: the root object at
address 0, its nested `puppeteer` object at address 1, the launch `options`
object at address 2 and the `args` array (an object with index keys) at
address 3.  Path- and interval-valued fields are primitives. -/
def defaultOptionsHeap : Heap :=
  [ (0, [ ("format", JsVal.prim "json"),
          ("userAgent", JsVal.prim "Mozilla/5.0"),
          ("requestInterval", JsVal.prim "2000"),
          ("batchSize", JsVal.prim "30"),
          ("batchInterval", JsVal.prim "5000"),
          ("dataDirectory", JsVal.prim "scraped_data"),
          ("filesDirectory", JsVal.prim "./files"),
          ("usePuppeteer", JsVal.prim "false"),
          ("puppeteer", JsVal.ref 1) ]),
    (1, [ ("options", JsVal.ref 2) ]),
    (2, [ ("headless", JsVal.prim "true"),
          ("args", JsVal.ref 3) ]),
    (3, [ ("0", JsVal.prim "--no-sandbox"),
          ("1", JsVal.prim "--disable-setuid-sandbox") ]) ]

/-- The `ScraperAPI` construction line
`config = deepMerge({ ...defaultOptions }, options)`: allocate the shallow
copy (sharing every nested reference), then deep-merge the user options into
it.  Returns the heap after construction and the config object's address. -/
def createScraperConfig (h : Heap) (optionsAddr : Nat) : Heap × Nat :=
  let copyAddr := freshAddr h
  let h1 := heapAlloc h copyAddr (heapGet h defaultOptionsAddr)
  let m := deepMergeVal 100 h1 (JsVal.ref copyAddr) optionsAddr
  (m.1, copyAddr)

/-- Follow a key path through references starting at an address. -/
def readPath (h : Heap) (a : Nat) : List String → Option JsVal
  | [] => some (JsVal.ref a)
  | [k] => objGet (heapGet h a) k
  | k :: ks =>
    match objGet (heapGet h a) k with
    | some (JsVal.ref b) => readPath h b ks
    | _ => none

/-! ## Trace instrumentation -/

/-- Number of fetch attempts recorded in a trace. -/
def countAttempts (evs : List Event) : Nat :=
  (evs.filter (fun e => match e with | Event.fetchAttempt _ => true | _ => false)).length

/-- Number of fetch attempts for one specific URL. -/
def countAttemptsFor (u : String) (evs : List Event) : Nat :=
  (evs.filter (fun e => match e with
    | Event.fetchAttempt v => v = u
    | _ => false)).length

/-- Number of extractor invocations recorded in a trace. -/
def countExtractor (evs : List Event) : Nat :=
  (evs.filter (fun e => match e with | Event.extractorCall _ => true | _ => false)).length

/-- The throttling pauses of a trace, in order. -/
def pausesOf (evs : List Event) : List Nat :=
  evs.filterMap (fun e => match e with | Event.pause m => some m | _ => none)

/-- One fetch followed by one throttle point, iterated: the shape the crawl
has when exactly one successful page fetch happens between consecutive
throttle points. -/
def fetchThenThrottleRun (env : Env) (cfg : Config) (url : String) :
    Nat → St → St × List Event
  | 0, st => (st, [])
  | n + 1, st =>
    let fr := fetchPage env url st
    let th := throttleRequests cfg fr.2.1
    let r := fetchThenThrottleRun env cfg url n th.1
    (r.1, fr.2.2 ++ th.2 ++ r.2)

/-! ## Concrete crawl scenarios

Closed theorems below evaluate the engine on the following small fixtures. -/

/-- Default throttling configuration (`requestInterval` 2000, `batchSize` 30,
`batchInterval` 5000). -/
def cfgDefault : Config :=
  { requestInterval := 2000, batchSize := 30, batchInterval := 5000 }

/-- Environment for the end-to-end count scenario: two listing pages and four
item pages, everything else unreachable. -/
def sixFetchEnv : Env :=
  { fetch := fun u =>
      if u = "http://s/p1" then some "P1"
      else if u = "http://s/p2" then some "P2"
      else if u = "http://s/i1" then some "I1"
      else if u = "http://s/i2" then some "I2"
      else if u = "http://s/i3" then some "I3"
      else if u = "http://s/i4" then some "I4"
      else none }

/-- Callbacks for the end-to-end count scenario: the pagination-finder yields
one extra page from the seed page, the items-link-finder yields two item URLs
per listing page, and the extractor returns one record per item page without
re-queueing. -/
def sixFetchCbs : Callbacks :=
  { paginationLinksFinder := some (fun p _ => if p = "P1" then ["http://s/p2"] else []),
    itemsLinkFinder := some (fun p _ =>
      if p = "P1" then ["http://s/i1", "http://s/i2"]
      else if p = "P2" then ["http://s/i3", "http://s/i4"]
      else []),
    itemDataExtractor := fun _ u _ =>
      { requeues := [], result := ItemData.obj [("t", u)] } }

/-- Configuration with `batchSize` 1 used to exercise the throttle counter. -/
def smallBatchCfg : Config :=
  { requestInterval := 7, batchSize := 1, batchInterval := 99 }

/-- Environment with one listing page and one item page. -/
def smallBatchEnv : Env :=
  { fetch := fun u =>
      if u = "http://s/a" then some "P"
      else if u = "http://s/i" then some "I"
      else none }

/-- Callbacks with an items-link-finder returning a single item URL and an
extractor returning one record. -/
def smallBatchCbs : Callbacks :=
  { paginationLinksFinder := none,
    itemsLinkFinder := some (fun _ _ => ["http://s/i"]),
    itemDataExtractor := fun _ _ _ =>
      { requeues := [], result := ItemData.obj [("a", "b")] } }

/-- Environment with exactly one fetchable page. -/
def singlePageEnv : Env :=
  { fetch := fun u => if u = "http://s/a" then some "P" else none }

/-- Callbacks without finders whose extractor records the URL it was invoked
on. -/
def urlRecordingCbs : Callbacks :=
  { paginationLinksFinder := none,
    itemsLinkFinder := none,
    itemDataExtractor := fun _ u _ =>
      { requeues := [], result := ItemData.obj [("u", u)] } }

/-- Callbacks whose items-link-finder returns one item URL that no
environment can fetch, and whose extractor ignores the page and always
returns a record. -/
def failingItemCbs : Callbacks :=
  { paginationLinksFinder := none,
    itemsLinkFinder := some (fun _ _ => ["http://s/i"]),
    itemDataExtractor := fun _ _ _ =>
      { requeues := [], result := ItemData.obj [("k", "v")] } }

/-- Environment for the multi-seed scenario: the first and third seed pages
fetch fine, the second fails. -/
def threeSeedEnv : Env :=
  { fetch := fun u =>
      if u = "http://s/a" then some "PA"
      else if u = "http://s/c" then some "PC"
      else none }

/-- Callbacks without finders whose extractor returns an array of two
records. -/
def arrayResultCbs : Callbacks :=
  { paginationLinksFinder := none,
    itemsLinkFinder := none,
    itemDataExtractor := fun _ _ _ =>
      { requeues := [], result := ItemData.arr [[("a", "1")], [("b", "2")]] } }

/-- User options passed to the first scraper: a nested puppeteer override
(`headless` set to `"false"`), allocated at addresses 10 to 12 next to the
default heap. -/
def userOptionsHeap : Heap :=
  defaultOptionsHeap ++
  [ (10, [ ("puppeteer", JsVal.ref 11) ]),
    (11, [ ("options", JsVal.ref 12) ]),
    (12, [ ("headless", JsVal.prim "false") ]) ]

/-! # Supporting lemmas -/

theorem appendUrlOne_queue (scraped : List String) (qs : QState) (u : String)
    (d : Option Record) :
    (appendUrlOne scraped qs u d).queue =
      if isValidURL u && !scraped.contains u && !qs.queue.contains u
      then qs.queue ++ [u] else qs.queue := by
  unfold appendUrlOne
  by_cases h : (isValidURL u && !scraped.contains u && !qs.queue.contains u) = true
  · rw [if_pos h, if_pos h]
  · rw [if_neg h, if_neg h]

theorem appendUrlOne_skip (scraped : List String) (qs : QState) (u : String)
    (d : Option Record)
    (h : ¬ ((isValidURL u && !scraped.contains u && !qs.queue.contains u) = true)) :
    appendUrlOne scraped qs u d = qs := by
  unfold appendUrlOne
  rw [if_neg h]

theorem appendUrlOne_idem (scraped : List String) (qs : QState) (u : String)
    (d : Option Record) :
    appendUrlOne scraped (appendUrlOne scraped qs u d) u d
      = appendUrlOne scraped qs u d := by
  by_cases h : (isValidURL u && !scraped.contains u && !qs.queue.contains u) = true
  · have hq : (appendUrlOne scraped qs u d).queue = qs.queue ++ [u] := by
      rw [appendUrlOne_queue, if_pos h]
    apply appendUrlOne_skip
    rw [hq]
    intro hc
    have h3 := (Bool.and_eq_true _ _).mp hc
    have h4 : u ∈ qs.queue ++ [u] :=
      List.mem_append_right _ (List.mem_singleton.mpr rfl)
    have h5 := h3.2
    rw [Bool.not_eq_true', ← Bool.not_eq_true] at h5
    exact h5 (List.elem_eq_true_of_mem h4)
  · rw [appendUrlOne_skip scraped qs u d h]
    exact appendUrlOne_skip scraped qs u d h

theorem count_le_one_appendUrlOne (scraped : List String) (qs : QState)
    (u : String) (d : Option Record) (h1 : qs.queue.count u ≤ 1) :
    (appendUrlOne scraped qs u d).queue.count u ≤ 1 := by
  rw [appendUrlOne_queue]
  by_cases h : (isValidURL u && !scraped.contains u && !qs.queue.contains u) = true
  · rw [if_pos h]
    have hu : u ∉ qs.queue := by
      have h2 := (Bool.and_eq_true _ _).mp h
      simpa using h2.2
    have hz : qs.queue.count u = 0 := List.count_eq_zero.mpr hu
    simp [List.count_append, hz]
  · rw [if_neg h]
    exact h1

theorem recLookup_cons (k0 : String) (v0 : String) (r : Record) (k : String) :
    recLookup ((k0, v0) :: r) k = if k0 = k then some v0 else recLookup r k := rfl

theorem recHasKey_iff (r : Record) (k : String) :
    recHasKey r k = true ↔ k ∈ objKeys r := by
  simp [recHasKey, objKeys, List.any_eq_true, List.mem_map]

theorem recLookup_eq_none (r : Record) (k : String) (h : k ∉ objKeys r) :
    recLookup r k = none := by
  induction r with
  | nil => rfl
  | cons p r ih =>
    rcases p with ⟨k0, v0⟩
    rw [recLookup_cons, if_neg]
    · exact ih (fun hm => h (by simp [objKeys] at hm ⊢; exact Or.inr hm))
    · intro hh
      exact h (by simp [objKeys, hh])

theorem recLookup_append (r s : Record) (k : String) :
    recLookup (r ++ s) k =
      match recLookup r k with
      | some v => some v
      | none => recLookup s k := by
  induction r with
  | nil => rfl
  | cons p r ih =>
    rcases p with ⟨k0, v0⟩
    rw [List.cons_append, recLookup_cons, recLookup_cons]
    by_cases h : k0 = k
    · rw [if_pos h, if_pos h]
    · rw [if_neg h, if_neg h]
      exact ih

theorem recLookup_map_update_ne (r : Record) (k k' v : String) (h : k' ≠ k) :
    recLookup (r.map (fun p => if p.1 = k then (k, v) else p)) k'
      = recLookup r k' := by
  induction r with
  | nil => rfl
  | cons p r ih =>
    rcases p with ⟨k0, v0⟩
    rw [List.map_cons]
    by_cases h0 : k0 = k
    · have hh : (if ((k0, v0) : String × String).1 = k then (k, v)
          else ((k0, v0) : String × String)) = (k, v) := by
        simp [h0]
      rw [hh, recLookup_cons, recLookup_cons,
        if_neg (fun hc => h hc.symm), if_neg (fun hc => h (h0 ▸ hc).symm)]
      exact ih
    · have hh : (if ((k0, v0) : String × String).1 = k then (k, v)
          else ((k0, v0) : String × String)) = (k0, v0) := by
        simp [h0]
      rw [hh, recLookup_cons, recLookup_cons]
      by_cases hk : k0 = k'
      · rw [if_pos hk, if_pos hk]
      · rw [if_neg hk, if_neg hk]
        exact ih

theorem recLookup_map_update_eq (r : Record) (k v : String)
    (h : recHasKey r k = true) :
    recLookup (r.map (fun p => if p.1 = k then (k, v) else p)) k = some v := by
  induction r with
  | nil => simp [recHasKey] at h
  | cons p r ih =>
    rcases p with ⟨k0, v0⟩
    rw [List.map_cons]
    by_cases h0 : k0 = k
    · have hh : (if ((k0, v0) : String × String).1 = k then (k, v)
          else ((k0, v0) : String × String)) = (k, v) := by
        simp [h0]
      rw [hh, recLookup_cons, if_pos rfl]
    · have hh : (if ((k0, v0) : String × String).1 = k then (k, v)
          else ((k0, v0) : String × String)) = (k0, v0) := by
        simp [h0]
      rw [hh, recLookup_cons, if_neg h0]
      apply ih
      simpa [recHasKey, h0] using h

theorem recLookup_recSet (r : Record) (k k' v : String) :
    recLookup (recSet r k v) k' = if k' = k then some v else recLookup r k' := by
  by_cases hb : recHasKey r k = true
  · rw [recSet, if_pos hb]
    by_cases hk : k' = k
    · subst hk
      rw [if_pos rfl]
      exact recLookup_map_update_eq r k' v hb
    · rw [if_neg hk]
      exact recLookup_map_update_ne r k k' v hk
  · rw [recSet, if_neg hb, recLookup_append]
    have hr : recLookup r k = none :=
      recLookup_eq_none r k (fun hm => hb ((recHasKey_iff r k).mpr hm))
    by_cases hk : k' = k
    · subst hk
      rw [hr, if_pos rfl]
      show recLookup [(k', v)] k' = some v
      rw [recLookup_cons, if_pos rfl]
    · rw [if_neg hk]
      cases hc : recLookup r k' with
      | some v1 => rfl
      | none =>
        show recLookup [(k, v)] k' = none
        rw [recLookup_cons, if_neg (fun hh => hk hh.symm)]
        rfl

theorem WFRec_tail {p : String × String} {b : Record} (h : WFRec (p :: b)) :
    WFRec b :=
  (List.nodup_cons.mp h).2

theorem recLookup_spreadMerge (a b : Record) (k : String) (hw : WFRec b) :
    recLookup (spreadMerge a b) k =
      match recLookup b k with
      | some v => some v
      | none => recLookup a k := by
  induction b generalizing a with
  | nil => rfl
  | cons p b ih =>
    rcases p with ⟨k0, v0⟩
    have hstep : spreadMerge a ((k0, v0) :: b) = spreadMerge (recSet a k0 v0) b := rfl
    have hnb : k0 ∉ objKeys b := by
      have h2 := List.nodup_cons.mp hw
      simpa [objKeys] using h2.1
    rw [hstep, ih (recSet a k0 v0) (WFRec_tail hw), recLookup_cons]
    by_cases hk : k0 = k
    · subst hk
      rw [recLookup_eq_none b k0 hnb, if_pos rfl, recLookup_recSet, if_pos rfl]
    · rw [if_neg hk, recLookup_recSet, if_neg (fun hh => hk hh.symm)]

theorem recLookup_spreadMerge_nil (r : Record) (k : String) (hw : WFRec r) :
    recLookup (spreadMerge [] r) k = recLookup r k := by
  rw [recLookup_spreadMerge [] r k hw]
  cases recLookup r k <;> rfl

theorem crawlLoop_nil (env : Env) (cfg : Config) (cbs : Callbacks) (url : String)
    (seedPage : Page) (staticData : Record) (baseUrl : String) (fuel : Nat)
    (dfu : DataForUrl) (items : List Item) (st : St) :
    crawlLoop env cfg cbs url seedPage staticData baseUrl fuel
      { queue := [], dfu := dfu } items st = (items, st, []) := by
  cases fuel <;> rfl

theorem fetchPage_some (env : Env) (url : String) (st : St) (p : Page)
    (h : env.fetch url = some p) :
    fetchPage env url st = (some p, { st with fpn := st.fpn + 1 },
      [Event.fetchAttempt url, Event.fetchOk url]) := by
  simp [fetchPage, h]

theorem fetchPage_none (env : Env) (url : String) (st : St)
    (h : env.fetch url = none) :
    fetchPage env url st = (none, st, [Event.fetchAttempt url]) := by
  simp [fetchPage, h]

theorem pausesOf_append (a b : List Event) :
    pausesOf (a ++ b) = pausesOf a ++ pausesOf b := by
  simp [pausesOf]

theorem pauses_fetchThenThrottleRun (env : Env) (cfg : Config) (url : String)
    (p : Page) (hfetch : env.fetch url = some p) :
    ∀ (n : Nat) (st : St), st.fpn < cfg.batchSize →
      pausesOf (fetchThenThrottleRun env cfg url n st).2 =
        (List.range n).map (fun i =>
          if (st.fpn + i + 1) % cfg.batchSize = 0 then cfg.batchInterval
          else cfg.requestInterval) := by
  intro n
  induction n with
  | zero => intro st _; rfl
  | succ n ih =>
    intro st h
    rw [fetchThenThrottleRun]
    rw [fetchPage_some env url st p hfetch]
    by_cases hb : st.fpn + 1 = cfg.batchSize
    · have hth : throttleRequests cfg { st with fpn := st.fpn + 1 } =
          ({ st with fpn := 0 }, [Event.pause cfg.batchInterval]) := by
        simp [throttleRequests, hb]
      rw [hth]
      have hpos : 0 < cfg.batchSize := by omega
      rw [pausesOf_append, pausesOf_append, ih { st with fpn := 0 } hpos]
      rw [List.range_succ_eq_map, List.map_cons, List.map_map]
      have h0 : (st.fpn + 0 + 1) % cfg.batchSize = 0 := by
        rw [show st.fpn + 0 + 1 = cfg.batchSize by omega, Nat.mod_self]
      have hfun : (fun i => if (({ st with fpn := 0 } : St).fpn + i + 1)
            % cfg.batchSize = 0 then cfg.batchInterval else cfg.requestInterval)
          = (fun i => if (st.fpn + i + 1) % cfg.batchSize = 0
              then cfg.batchInterval else cfg.requestInterval) ∘ Nat.succ := by
        funext i
        show (if (0 + i + 1) % cfg.batchSize = 0 then _ else _) = _
        have harg : st.fpn + (i + 1) + 1 = cfg.batchSize + (0 + i + 1) := by omega
        show _ = if (st.fpn + (i + 1) + 1) % cfg.batchSize = 0 then _ else _
        rw [harg, Nat.add_mod_left]
      rw [hfun, h0]
      simp [pausesOf]
    · have hlt : st.fpn + 1 < cfg.batchSize := by omega
      have hth : throttleRequests cfg { st with fpn := st.fpn + 1 } =
          ({ st with fpn := st.fpn + 1 }, [Event.pause cfg.requestInterval]) := by
        simp [throttleRequests, hb]
      rw [hth]
      rw [pausesOf_append, pausesOf_append, ih { st with fpn := st.fpn + 1 } hlt]
      rw [List.range_succ_eq_map, List.map_cons, List.map_map]
      have h0 : ¬ ((st.fpn + 0 + 1) % cfg.batchSize = 0) := by
        rw [Nat.mod_eq_of_lt (by omega)]
        omega
      have hfun : (fun i => if (({ st with fpn := st.fpn + 1 } : St).fpn + i + 1)
            % cfg.batchSize = 0 then cfg.batchInterval else cfg.requestInterval)
          = (fun i => if (st.fpn + i + 1) % cfg.batchSize = 0
              then cfg.batchInterval else cfg.requestInterval) ∘ Nat.succ := by
        funext i
        show (if (st.fpn + 1 + i + 1) % cfg.batchSize = 0 then _ else _) = _
        have harg : st.fpn + 1 + i + 1 = st.fpn + (i + 1) + 1 := by omega
        show _ = if (st.fpn + (i + 1) + 1) % cfg.batchSize = 0 then _ else _
        rw [harg]
      rw [hfun, if_neg h0]
      simp [pausesOf]

theorem jsSetOfList_foldl (l : List String) : ∀ acc : List String,
    l.foldl (fun acc k => if acc.contains k then acc else acc ++ [k]) acc
      = acc ++ (firstAppearanceOrder l).filter (fun a => !acc.contains a) := by
  induction l with
  | nil => intro acc; simp [firstAppearanceOrder]
  | cons k ks ih =>
    intro acc
    rw [List.foldl_cons]
    by_cases h : acc.contains k = true
    · rw [if_pos h, ih]
      congr 1
      rw [firstAppearanceOrder, List.filter_cons]
      have hk : (!acc.contains k) = false := by rw [h]; rfl
      rw [hk]
      simp only [Bool.false_eq_true, if_false]
      rw [List.filter_filter]
      apply List.filter_congr
      intro a _
      cases hca : (!acc.contains a) with
      | false => simp
      | true =>
        have hak : a ≠ k := by
          intro hh
          subst hh
          rw [h] at hca
          simp at hca
        simp [hak]
    · rw [if_neg h, ih]
      rw [firstAppearanceOrder, List.filter_cons]
      have hk : (!acc.contains k) = true := by
        cases hcb : acc.contains k with
        | true => exact absurd hcb h
        | false => rfl
      rw [hk]
      simp only [if_true]
      rw [← List.append_cons, List.filter_filter]
      congr 1
      congr 1
      apply List.filter_congr
      intro a _
      by_cases hak : a = k
      · subst hak
        have : (acc ++ [a]).contains a = true := by
          apply List.elem_eq_true_of_mem
          exact List.mem_append_right _ (List.mem_singleton.mpr rfl)
        simp [this]
      · have hmem : (acc ++ [k]).contains a = acc.contains a := by
          cases hca : acc.contains a with
          | true =>
            apply List.elem_eq_true_of_mem
            exact List.mem_append_left _ (List.mem_of_elem_eq_true hca)
          | false =>
            rw [Bool.eq_false_iff]
            intro hc
            have h7 := List.mem_of_elem_eq_true hc
            rcases List.mem_append.mp h7 with hm | hm
            · have h8 : acc.contains a = true := List.elem_eq_true_of_mem hm
              rw [h8] at hca
              cases hca
            · exact hak (List.mem_singleton.mp hm)
        simp [hmem, hak]

theorem jsSetOfList_eq_firstAppearanceOrder (l : List String) :
    jsSetOfList l = firstAppearanceOrder l := by
  rw [jsSetOfList, jsSetOfList_foldl l []]
  simp

/-! # Claim theorems -/

/-- C1: a URL handed to the re-queueing callback (alone or in a sequence) is
appended to the bound queue exactly when it is a syntactically valid absolute
URL, not in the scraped set and not already pending in that queue; appending
the same URL twice is the same as appending it once, so a URL occurring at
most once in the queue still occurs at most once afterwards and is fetched at
most once when the queue drains. -/
theorem C1_requeue_validation_and_dedup (scraped : List String) (qs : QState)
    (u : String) (us : List String) (d : Option Record) :
    ((appendUrlOne scraped qs u d).queue =
      if isValidURL u && !scraped.contains u && !qs.queue.contains u
      then qs.queue ++ [u] else qs.queue)
    ∧ appendUrlOne scraped (appendUrlOne scraped qs u d) u d
        = appendUrlOne scraped qs u d
    ∧ (qs.queue.count u ≤ 1 → (appendUrlOne scraped qs u d).queue.count u ≤ 1)
    ∧ appendUrlToQueue scraped qs (UrlArg.one u) d = appendUrlOne scraped qs u d
    ∧ appendUrlToQueue scraped qs (UrlArg.many us) d
        = us.foldl (fun acc v => appendUrlOne scraped acc v d) qs :=
  ⟨appendUrlOne_queue scraped qs u d,
   appendUrlOne_idem scraped qs u d,
   fun h1 => count_le_one_appendUrlOne scraped qs u d h1,
   rfl,
   rfl⟩

/-- C1 witness: the double-append bound instantiated on an empty queue. -/
theorem C1_requeue_validation_and_dedup_witness :
    (appendUrlOne [] { queue := [], dfu := [] } "http://a/b" none).queue.count
      "http://a/b" ≤ 1 :=
  (C1_requeue_validation_and_dedup [] { queue := [], dfu := [] } "http://a/b"
    [] none).2.2.1 (by decide)

/-- C2 counterexample: on the same scraper state, a first `scrapeUrl` call on
the seed produces one record, and an identical second call produces no record
and never invokes the extractor — the URL scraped by the first call is
skipped by the second, so the scraped set did not start empty at the second
call. -/
theorem C2_counterexample :
    (scrapeUrl singlePageEnv cfgDefault urlRecordingCbs 10 "http://s/a" []
      { scraped := [], fpn := 0 }).1
      = some [Item.flat [("u", "http://s/a")]]
    ∧ (scrapeUrl singlePageEnv cfgDefault urlRecordingCbs 10 "http://s/a" []
        (scrapeUrl singlePageEnv cfgDefault urlRecordingCbs 10 "http://s/a" []
          { scraped := [], fpn := 0 }).2.1).1
      = some []
    ∧ countExtractor (scrapeUrl singlePageEnv cfgDefault urlRecordingCbs 10
        "http://s/a" []
        (scrapeUrl singlePageEnv cfgDefault urlRecordingCbs 10 "http://s/a" []
          { scraped := [], fpn := 0 }).2.1).2.2
      = 0 := by
  decide

/-- C2 (amended): the `scrapedUrls` set is owned by the scraper instance, not
by one `scrapeUrl` call, so a seed URL already in the set is fetched once and
then skipped by the dequeue check: with no pagination-finder the crawl
returns an empty item list, having invoked no extractor. -/
theorem C2_scrapedUrls_persist (env : Env) (cfg : Config) (cbs : Callbacks)
    (fuel : Nat) (url : String) (staticData : Record) (st : St) (p : Page)
    (hf : env.fetch url = some p)
    (hpag : cbs.paginationLinksFinder = none)
    (hs : st.scraped.contains url = true) :
    scrapeUrl env cfg cbs (fuel + 1) url staticData st
      = (some [], { st with fpn := st.fpn + 1 },
         [Event.fetchAttempt url, Event.fetchOk url]) := by
  unfold scrapeUrl
  rw [fetchPage_some env url st p hf]
  simp only [hpag]
  rw [crawlLoop]
  simp only [List.append_nil]
  have hs1 : ({ st with fpn := st.fpn + 1 } : St).scraped.contains url = true := hs
  rw [hs1]
  simp only [if_true]
  rw [crawlLoop_nil]
  simp

/-- C2 witness: the amended statement evaluated on the single-page fixture
with the seed already scraped. -/
theorem C2_scrapedUrls_persist_witness :
    scrapeUrl singlePageEnv cfgDefault urlRecordingCbs 10 "http://s/a" []
      { scraped := ["http://s/a"], fpn := 5 }
      = (some [], { scraped := ["http://s/a"], fpn := 6 },
         [Event.fetchAttempt "http://s/a", Event.fetchOk "http://s/a"]) :=
  C2_scrapedUrls_persist singlePageEnv cfgDefault urlRecordingCbs 9
    "http://s/a" [] { scraped := ["http://s/a"], fpn := 5 } "P"
    (by decide) rfl (by decide)

/-- C3 counterexample: with `batchSize` 1 the seed fetch already reaches
exactly `batchSize` successful fetches, yet the crawl (seed page plus one
item page, so two fetches before the first throttle point) pauses twice for
`requestInterval` 7, never for `batchInterval` 99, and the counter finishes
at 2 instead of being reset — the batch pause is skipped although
`batchSize` successful fetches had occurred since the last reset. -/
theorem C3_counterexample :
    smallBatchCfg.batchSize = 1
    ∧ smallBatchCfg.batchInterval = 99
    ∧ pausesOf (scrapeUrl smallBatchEnv smallBatchCfg smallBatchCbs 10
        "http://s/a" [] { scraped := [], fpn := 0 }).2.2 = [7, 7]
    ∧ (scrapeUrl smallBatchEnv smallBatchCfg smallBatchCbs 10
        "http://s/a" [] { scraped := [], fpn := 0 }).2.1.fpn = 2 := by
  decide

/-- C3 (amended): a throttle point pauses for `batchInterval` and resets the
counter exactly when the counter equals `batchSize` at that point, and pauses
for `requestInterval` leaving the counter alone otherwise; consequently the
batch cadence only emerges when exactly one successful fetch happens between
consecutive throttle points, in which case the pause after every
`batchSize`-th fetch is `batchInterval` and all others are
`requestInterval`. -/
theorem C3_throttle_batch_boundary (cfg : Config) (st : St) (env : Env)
    (url : String) (p : Page) (n : Nat) (st0 : St)
    (hf : env.fetch url = some p) (h0 : st0.fpn < cfg.batchSize) :
    (st.fpn = cfg.batchSize →
      throttleRequests cfg st
        = ({ st with fpn := 0 }, [Event.pause cfg.batchInterval]))
    ∧ (st.fpn ≠ cfg.batchSize →
      throttleRequests cfg st = (st, [Event.pause cfg.requestInterval]))
    ∧ pausesOf (fetchThenThrottleRun env cfg url n st0).2 =
        (List.range n).map (fun i =>
          if (st0.fpn + i + 1) % cfg.batchSize = 0 then cfg.batchInterval
          else cfg.requestInterval) := by
  refine ⟨?_, ?_, pauses_fetchThenThrottleRun env cfg url p hf n st0 h0⟩
  · intro h
    simp [throttleRequests, h]
  · intro h
    simp [throttleRequests, h]

/-- C3 witness: four fetch-then-throttle rounds with `batchSize` 2 pause with
the pattern request, batch, request, batch. -/
theorem C3_throttle_batch_boundary_witness :
    pausesOf (fetchThenThrottleRun singlePageEnv
      { requestInterval := 7, batchSize := 2, batchInterval := 99 }
      "http://s/a" 4 { scraped := [], fpn := 0 }).2 =
      (List.range 4).map (fun i => if (0 + i + 1) % 2 = 0 then 99 else 7) :=
  (C3_throttle_batch_boundary
    { requestInterval := 7, batchSize := 2, batchInterval := 99 }
    { scraped := [], fpn := 0 } singlePageEnv "http://s/a" "P" 4
    { scraped := [], fpn := 0 } (by decide) (by decide)).2.2

/-- C4: every record the crawl persists is built by the object literal
spreading the extracted fields, then the seed static data, then the per-URL
supplemental data, and for well-formed JS objects the resulting field value
is the supplemental one when present, otherwise the static one, otherwise the
extracted one — so static data overrides a same-named extracted field and
supplemental data overrides both. -/
theorem C4_merge_precedence (items : List Item) (r : Record) (rs : List Record)
    (staticData extra : Record) (k : String)
    (hr : WFRec r) (hs : WFRec staticData) (he : WFRec extra) :
    (appendItemData items (ItemData.obj r) staticData (some extra)
      = items ++ [Item.flat (mergeItem r staticData (some extra))])
    ∧ (appendItemData items (ItemData.arr rs) staticData (some extra)
      = items ++ [Item.nested (rs.map (fun x => mergeItem x staticData (some extra)))])
    ∧ recLookup (mergeItem r staticData (some extra)) k
      = (match recLookup extra k with
         | some v => some v
         | none =>
           match recLookup staticData k with
           | some v => some v
           | none => recLookup r k)
    ∧ recLookup (mergeItem r staticData none) k
      = (match recLookup staticData k with
         | some v => some v
         | none => recLookup r k) := by
  refine ⟨rfl, rfl, ?_, ?_⟩
  · rw [mergeItem]
    show recLookup (spreadMerge (spreadMerge (spreadMerge [] r) staticData) extra) k = _
    rw [recLookup_spreadMerge _ extra k he]
    cases recLookup extra k with
    | some v => rfl
    | none =>
      show recLookup (spreadMerge (spreadMerge [] r) staticData) k = _
      rw [recLookup_spreadMerge _ staticData k hs]
      cases recLookup staticData k with
      | some v => rfl
      | none =>
        show recLookup (spreadMerge [] r) k = recLookup r k
        exact recLookup_spreadMerge_nil r k hr
  · show recLookup (spreadMerge (spreadMerge [] r) staticData) k = _
    rw [recLookup_spreadMerge _ staticData k hs]
    cases recLookup staticData k with
    | some v => rfl
    | none =>
      show recLookup (spreadMerge [] r) k = recLookup r k
      exact recLookup_spreadMerge_nil r k hr

/-- C4 witness: a static field overrides the extracted one and the
supplemental field overrides both on a concrete record. -/
theorem C4_merge_precedence_witness :
    recLookup (mergeItem [("title", "shoe"), ("brand", "extracted")]
      [("brand", "nike")] (some [("brand", "supplemental")])) "brand"
      = some "supplemental" := by
  rw [(C4_merge_precedence [] [("title", "shoe"), ("brand", "extracted")] []
    [("brand", "nike")] [("brand", "supplemental")] "brand"
    (by unfold WFRec objKeys; decide) (by unfold WFRec objKeys; decide)
    (by unfold WFRec objKeys; decide)).2.2.1]
  decide

/-- C5 counterexample: the item URL cannot be fetched, yet the extractor is
invoked once (receiving the failure signal) and a record produced by it is
persisted — contradicting that a failed item fetch skips extraction and
yields no record. -/
theorem C5_counterexample :
    singlePageEnv.fetch "http://s/i" = none
    ∧ countAttemptsFor "http://s/i" (scrapeUrl singlePageEnv cfgDefault
        failingItemCbs 10 "http://s/a" [] { scraped := [], fpn := 0 }).2.2 = 1
    ∧ countExtractor (scrapeUrl singlePageEnv cfgDefault failingItemCbs 10
        "http://s/a" [] { scraped := [], fpn := 0 }).2.2 = 1
    ∧ (scrapeUrl singlePageEnv cfgDefault failingItemCbs 10 "http://s/a" []
        { scraped := [], fpn := 0 }).1
      = some [Item.flat [("k", "v")]] := by
  decide

/-- C5 (amended): a non-seed page URL whose fetch fails is marked scraped and
skipped — the trace gains only the fetch attempt, no extractor call, no
record — and the loop continues with the rest of the queue; an item URL whose
fetch fails is not skipped: the extractor is invoked with the failure signal
as its page argument, and a record is appended exactly when its return value
calls for one. -/
theorem C5_failed_fetch_skips_page_but_not_item (env : Env) (cfg : Config)
    (cbs : Callbacks) (url : String) (seedPage : Page) (staticData : Record)
    (baseUrl : String) (fuel : Nat) (pageUrl : String) (rest : List String)
    (dfu : DataForUrl) (items : List Item) (st : St) (itemUrl : String)
    (irest : List String) (idfu : DataForUrl) (iitems : List Item) (ist : St)
    (hns : st.scraped.contains pageUrl = false)
    (hne : pageUrl ≠ url)
    (hpf : env.fetch pageUrl = none)
    (hhttp : startsWithHttp itemUrl = true)
    (hif : env.fetch itemUrl = none) :
    (crawlLoop env cfg cbs url seedPage staticData baseUrl (fuel + 1)
        { queue := pageUrl :: rest, dfu := dfu } items st =
      (let r := crawlLoop env cfg cbs url seedPage staticData baseUrl fuel
          { queue := rest, dfu := dfu } items
          { st with scraped := st.scraped ++ [pageUrl] }
       (r.1, r.2.1, Event.fetchAttempt pageUrl :: r.2.2)))
    ∧ (itemsLoop env cfg cbs staticData baseUrl (fuel + 1)
        { queue := itemUrl :: irest, dfu := idfu } iitems ist =
      (let out := cbs.itemDataExtractor none itemUrl (dfuLookup idfu itemUrl)
       let qs1 := applyRequeues ist.scraped { queue := irest, dfu := idfu }
         out.requeues
       let items1 := appendItemData iitems out.result staticData
         (dfuLookup idfu itemUrl)
       let th := throttleRequests cfg ist
       let r := itemsLoop env cfg cbs staticData baseUrl fuel qs1 items1 th.1
       (r.1, r.2.1, r.2.2.1,
        Event.fetchAttempt itemUrl :: Event.extractorCall itemUrl ::
          (th.2 ++ r.2.2.2)))) := by
  constructor
  · rw [crawlLoop]
    show (if st.scraped.contains pageUrl = true then _ else _) = _
    rw [if_neg (by rw [hns]; exact Bool.false_ne_true)]
    show (let fr : Option Page × St × List Event :=
        if pageUrl = url then (some seedPage, st, [])
        else fetchPage env pageUrl st
      _) = _
    rw [if_neg hne, fetchPage_none env pageUrl st hpf]
    rfl
  · simp only [itemsLoop, hhttp, if_true, fetchPage_none env itemUrl ist hif]
    rfl

/-- C5 witness: the amended statement evaluated on a failing page URL and a
failing item URL. -/
theorem C5_failed_fetch_skips_page_but_not_item_witness :
    crawlLoop singlePageEnv cfgDefault failingItemCbs "http://s/a" "P" []
      "http://s" 4 { queue := ["http://s/x"], dfu := [] } []
      { scraped := [], fpn := 0 }
      = ([], { scraped := ["http://s/x"], fpn := 0 },
         [Event.fetchAttempt "http://s/x"])
    ∧ itemsLoop singlePageEnv cfgDefault failingItemCbs [] "http://s" 4
        { queue := ["http://s/i"], dfu := [] } [] { scraped := [], fpn := 0 }
      = ([Item.flat [("k", "v")]], [], { scraped := [], fpn := 0 },
         [Event.fetchAttempt "http://s/i", Event.extractorCall "http://s/i",
          Event.pause 2000]) := by
  have h := C5_failed_fetch_skips_page_but_not_item singlePageEnv cfgDefault
    failingItemCbs "http://s/a" "P" [] "http://s" 3 "http://s/x" [] [] []
    { scraped := [], fpn := 0 } "http://s/i" [] [] [] { scraped := [], fpn := 0 }
    (by decide) (by decide) (by decide) (by decide) (by decide)
  refine ⟨?_, ?_⟩
  · rw [h.1]
    decide
  · rw [h.2]
    decide

/-- C6: with three bare seeds whose middle seed page cannot be fetched, the
failing seed crawl aborts after its single fetch attempt with no retry and
the first seed's file survives, but the run does not proceed to the third
seed: `scrapeUrl` returns the failure signal instead of an array, the
formatter's length read throws, and the whole `scrape` call crashes before
the third seed is ever fetched. -/
theorem C6_seed_failure_crashes_run :
    threeSeedEnv.fetch "http://s/b" = none
    ∧ (scrape threeSeedEnv cfgDefault urlRecordingCbs 10
        [Seed.bare "http://s/a", Seed.bare "http://s/b", Seed.bare "http://s/c"]
        { scraped := [], fpn := 0 }).1 = ["items_s_a.json"]
    ∧ (scrape threeSeedEnv cfgDefault urlRecordingCbs 10
        [Seed.bare "http://s/a", Seed.bare "http://s/b", Seed.bare "http://s/c"]
        { scraped := [], fpn := 0 }).2.2.1 = true
    ∧ countAttemptsFor "http://s/b" (scrape threeSeedEnv cfgDefault
        urlRecordingCbs 10
        [Seed.bare "http://s/a", Seed.bare "http://s/b", Seed.bare "http://s/c"]
        { scraped := [], fpn := 0 }).2.2.2 = 1
    ∧ countAttemptsFor "http://s/c" (scrape threeSeedEnv cfgDefault
        urlRecordingCbs 10
        [Seed.bare "http://s/a", Seed.bare "http://s/b", Seed.bare "http://s/c"]
        { scraped := [], fpn := 0 }).2.2.2 = 0 := by
  decide

/-- C7: when the extractor returns an array of two records, the crawl appends
the mapped array as a single nested element — the returned sequence has one
element holding a nested list of the two individually merged records, not two
flat records. -/
theorem C7_array_result_is_nested :
    (scrapeUrl singlePageEnv cfgDefault arrayResultCbs 10 "http://s/a"
      [("s", "d")] { scraped := [], fpn := 0 }).1
      = some [Item.nested [[("a", "1"), ("s", "d")], [("b", "2"), ("s", "d")]]] := by
  decide

/-- C8: on the fixture whose pagination-finder yields one extra page and
whose items-link-finder yields two item URLs per page, the crawl performs
exactly 6 fetches (the seed content is reused at dequeue), invokes the
extractor exactly 4 times, and returns exactly the 4 merged records. -/
theorem C8_end_to_end_counts :
    countAttempts (scrapeUrl sixFetchEnv cfgDefault sixFetchCbs 10
      "http://s/p1" [("brand", "nike")] { scraped := [], fpn := 0 }).2.2 = 6
    ∧ countAttemptsFor "http://s/p1" (scrapeUrl sixFetchEnv cfgDefault
        sixFetchCbs 10 "http://s/p1" [("brand", "nike")]
        { scraped := [], fpn := 0 }).2.2 = 1
    ∧ countExtractor (scrapeUrl sixFetchEnv cfgDefault sixFetchCbs 10
        "http://s/p1" [("brand", "nike")] { scraped := [], fpn := 0 }).2.2 = 4
    ∧ (scrapeUrl sixFetchEnv cfgDefault sixFetchCbs 10 "http://s/p1"
        [("brand", "nike")] { scraped := [], fpn := 0 }).1
      = some [Item.flat [("t", "http://s/i1"), ("brand", "nike")],
              Item.flat [("t", "http://s/i2"), ("brand", "nike")],
              Item.flat [("t", "http://s/i3"), ("brand", "nike")],
              Item.flat [("t", "http://s/i4"), ("brand", "nike")]] := by
  decide

/-- C9: for nonempty data the CSV formatter writes a header equal to the
union of all record keys in order of first appearance and one row per record
in input order, a record lacking a header key contributing an empty cell; on
the empty record sequence neither the CSV nor the JSON formatter writes a
file and both report a falsy result. -/
theorem C9_formatter_output (fp fp2 fp3 : String) (data : List Record)
    (hd : data ≠ []) :
    csvFormatter fp data
      = some { path := ensureExt fp ".csv",
               header := firstAppearanceOrder (data.flatMap objKeys),
               rows := data.map (fun r =>
                 (firstAppearanceOrder (data.flatMap objKeys)).map
                   (fun k => (recLookup r k).getD "")) }
    ∧ csvFormatter fp2 [] = none
    ∧ jsonFormatterRun fp3 (some []) = Except.ok none := by
  refine ⟨?_, rfl, rfl⟩
  match data, hd with
  | r :: rs, _ =>
    rw [csvFormatter, jsSetOfList_eq_firstAppearanceOrder]

/-- C9 witness: the formatter contract evaluated on the spec's own example,
records with keys `a, b` and `a` giving header `a, b` and rows with an empty
second cell. -/
theorem C9_formatter_output_witness :
    csvFormatter "f" [[("a", "1"), ("b", "2")], [("a", "3")]]
      = some { path := "f.csv", header := ["a", "b"],
               rows := [["1", "2"], ["3", ""]] }
    ∧ csvFormatter "g" [] = none
    ∧ jsonFormatterRun "h" (some []) = Except.ok none := by
  have h := C9_formatter_output "f" "g" "h"
    [[("a", "1"), ("b", "2")], [("a", "3")]] (by decide)
  refine ⟨?_, h.2.1, h.2.2⟩
  rw [h.1]
  decide

/-- C10 counterexample: before construction the default options' nested
`puppeteer.options.headless` reads `"true"`; after `createScraper` runs with
a nested puppeteer override the very same path under the module-level
`defaultOptions` object reads `"false"` — `defaultOptions` is not left
unchanged by `createScraper`. -/
theorem C10_counterexample :
    readPath defaultOptionsHeap defaultOptionsAddr
      ["puppeteer", "options", "headless"] = some (JsVal.prim "true")
    ∧ readPath (createScraperConfig userOptionsHeap 10).1 defaultOptionsAddr
        ["puppeteer", "options", "headless"] = some (JsVal.prim "false") := by
  decide

/-- C10 (amended): the shallow copy in `createScraper` shares the nested
`defaultOptions` objects, and the in-place deep merge writes a nested
override through the shared reference into `defaultOptions` itself; a second
scraper constructed afterwards with no overrides therefore observes the first
scraper's nested setting, whereas a second scraper constructed from a pristine
default heap observes the original default. -/
theorem C10_defaultOptions_mutated :
    readPath (createScraperConfig userOptionsHeap 10).1 defaultOptionsAddr
      ["puppeteer", "options", "headless"] = some (JsVal.prim "false")
    ∧ readPath
        (createScraperConfig ((createScraperConfig userOptionsHeap 10).1
          ++ [(20, ([] : JsObj))]) 20).1
        (createScraperConfig ((createScraperConfig userOptionsHeap 10).1
          ++ [(20, ([] : JsObj))]) 20).2
        ["puppeteer", "options", "headless"] = some (JsVal.prim "false")
    ∧ readPath
        (createScraperConfig (defaultOptionsHeap ++ [(20, ([] : JsObj))]) 20).1
        (createScraperConfig (defaultOptionsHeap ++ [(20, ([] : JsObj))]) 20).2
        ["puppeteer", "options", "headless"] = some (JsVal.prim "true") := by
  decide

end Libscraper
